import Mathlib

/-!
# Verification of the unlimited archiver (`fetcher/main_v3.py`)

A shallow embedding of the discovery-and-download engine:
the transport layer (`_make_request`), the page walker
(`discover_dataset_pages`), the dataset discoverer
(`discover_all_datasets`), the downloader (`download_file`), the cache
store (`_load_cache`), cleanup (`cleanup_all`) and the run controller
(`discover_and_process_all`, `main`).

Modelling conventions:
* byte strings are `List Nat`;
* timestamps (`datetime.now().isoformat()`) are abstract `Nat` ticks
  supplied as parameters;
* the Python `dict`s are association lists;
* page bodies are abstracted to the link lists the (deterministic)
  extractor `_extract_file_links` produces from them, so a server is a
  function from page number to a `TransportResult` carrying those links;
* the filesystem visible to one `download_file` call is an association
  list from (dataset id, file name) to content.
-/

namespace Archiver

/-- `DownloadStatus` enumeration from the source. -/
inductive DownloadStatus where
  | pending
  | success
  | failed
  | skipped
deriving DecidableEq, Repr

/-- A download path inside the archive tree: `dataset<id>/<name>`. -/
abbrev FilePath' := Nat × String

/-- `FileMetadata` dataclass from the source (timestamps as `Nat`). -/
structure FileMetadata where
  url : String
  filename : String
  dataset : Nat
  discovered_at : Nat
  last_checked : Option Nat := none
  status : DownloadStatus := .pending
  download_path : Option FilePath' := none
  file_size : Option Nat := none
  checksum : Option String := none
  download_attempts : Nat := 0
  last_error : Option String := none
  downloaded_at : Option Nat := none
deriving DecidableEq, Repr

/-- `CacheState` dataclass from the source: the persistent archive state. -/
structure CacheState where
  version : String := "2.0"
  created_at : Nat := 0
  last_updated : Nat := 0
  files : List (String × FileMetadata) := []
  datasets_scanned : List Nat := []
  max_dataset_found : Nat := 0
  total_discovered : Nat := 0
  total_downloaded : Nat := 0
  total_failed : Nat := 0
  total_skipped : Nat := 0
deriving DecidableEq, Repr

/-- The empty state `CacheState()` created on first run (at tick `now`). -/
def CacheState.fresh (now : Nat) : CacheState :=
  { created_at := now, last_updated := now }

/-! ## Association-list helpers (the Python `dict` operations used) -/

/-- Lookup in an association list (`d[k]` / `k in d`). -/
def alookup {α β : Type} [DecidableEq α] (k : α) : List (α × β) → Option β
  | [] => none
  | (k', v) :: t => if k' = k then some v else alookup k t

/-- Replace the value stored at key `k` (in-place record mutation). -/
def aupdate {α β : Type} [DecidableEq α] (k : α) (v : β) :
    List (α × β) → List (α × β)
  | [] => []
  | (k', v') :: t =>
    if k' = k then (k, v) :: aupdate k v t else (k', v') :: aupdate k v t

/-- Remove the entry at key `k` (`Path.unlink(missing_ok=True)`). -/
def aerase {α β : Type} [DecidableEq α] (k : α) :
    List (α × β) → List (α × β)
  | [] => []
  | (k', v') :: t => if k' = k then aerase k t else (k', v') :: aerase k t

/-- Write value `v` at key `k`, overwriting (`open(path, 'wb')`). -/
def aput {α β : Type} [DecidableEq α] (k : α) (v : β) (l : List (α × β)) :
    List (α × β) :=
  (k, v) :: aerase k l

/-! ## Polite transport (`_make_request`) -/

/-- A link extracted from a page body by `_extract_file_links`. -/
structure Link where
  url : String
  filename : String
deriving DecidableEq, Repr

/-- What the server/network does for one request, before `_make_request`
collapses it: a 403, a timeout, a network error, or a response with an
HTTP status whose body extracts to `links`. -/
inductive TransportResult where
  | forbidden
  | timeout
  | netError
  | response (status : Nat) (links : List Link)
deriving DecidableEq, Repr

/-- `_make_request`: returns `None` on 403, timeout and network error
alike, otherwise the response (modelled as status plus extracted links). -/
def make_request : TransportResult → Option (Nat × List Link)
  | .forbidden => none
  | .timeout => none
  | .netError => none
  | .response s l => some (s, l)

/-! ## Link deduplication (the `seen_urls` loops) -/

/-- Keep the first occurrence of each URL not already in `seen`. -/
def dedupLinks (seen : List String) : List Link → List Link
  | [] => []
  | l :: t =>
    if l.url ∈ seen then dedupLinks seen t
    else l :: dedupLinks (l.url :: seen) t

/-! ## Page walker loop (`discover_dataset_pages`, request loop) -/

/-- Loop state of `discover_dataset_pages`: the page counter, the
consecutive-empty-page counter, the accumulated `all_files`, and the
trace of pages actually requested. -/
structure WalkState where
  page : Nat
  consecEmpty : Nat
  allFiles : List Link
  requested : List Nat
deriving DecidableEq, Repr

/-- Result of one loop iteration: continue, or break out of the loop. -/
inductive WalkStepResult where
  | cont (s : WalkState)
  | stop (s : WalkState)
deriving DecidableEq, Repr

/-- One iteration of the page loop body (the request for `s.page` is
made, then the branches of the source are followed; `.stop` is a
`break`). -/
def walk_step (resp : Nat → TransportResult) (s : WalkState) : WalkStepResult :=
  let s1 : WalkState := { s with requested := s.requested ++ [s.page] }
  match make_request (resp s.page) with
  | none => .stop s1
  | some (status, links) =>
    if status = 200 then
      if links ≠ [] then
        .cont { s1 with
                  page := s.page + 1
                  consecEmpty := 0
                  allFiles := s.allFiles ++ dedupLinks [] links }
      else
        .cont { s1 with page := s.page + 1, consecEmpty := s.consecEmpty + 1 }
    else if status = 404 then
      .stop s1
    else
      .cont { s1 with page := s.page + 1, consecEmpty := s.consecEmpty + 1 }

/-- The `while page < max_pages and consecutive_empty_pages < 3` loop,
with explicit fuel (the loop makes at most `maxPages` iterations, so any
fuel `≥ maxPages` computes the true final state). -/
def walk_loop (resp : Nat → TransportResult) (maxPages maxEmpty : Nat) :
    Nat → WalkState → WalkState
  | 0, s => s
  | fuel + 1, s =>
    if s.page < maxPages ∧ s.consecEmpty < maxEmpty then
      match walk_step resp s with
      | .cont s' => walk_loop resp maxPages maxEmpty fuel s'
      | .stop s' => s'
    else s

/-- Running the page-walk request loop of `discover_dataset_pages` from
page 0 with the source defaults (`max_pages = 1000`,
`max_consecutive_empty = 3`). -/
def walk_run (resp : Nat → TransportResult) : WalkState :=
  walk_loop resp 1000 3 1000 ⟨0, 0, [], []⟩

/-! ## Dataset discoverer (`discover_all_datasets`) -/

/-- Loop state of `discover_all_datasets`: the id being probed, the
consecutive-failure counter, the list of existing datasets found, and
whether the loop exited through its own stopping condition (as opposed
to running out of fuel in the model). -/
structure DiscState where
  current : Nat
  consecFail : Nat
  found : List Nat
  finished : Bool
deriving DecidableEq, Repr

/-- One iteration of the discovery loop body: probe the page-0 URL of
`s.current`; 200 appends the id and resets the failure counter, `None`
(blocked/timeout/network error), 404 and every other status increment
it; then `current_dataset += 1`. -/
def discover_step (resp : Nat → TransportResult) (s : DiscState) : DiscState :=
  match make_request (resp s.current) with
  | none =>
    { s with consecFail := s.consecFail + 1, current := s.current + 1 }
  | some (status, _) =>
    if status = 200 then
      { s with
          found := s.found ++ [s.current]
          consecFail := 0
          current := s.current + 1 }
    else
      { s with consecFail := s.consecFail + 1, current := s.current + 1 }

/-- The `while consecutive_failures < max_consecutive_failures` loop of
`discover_all_datasets`, with fuel. The source loop is unbounded; fuel
exhaustion leaves `finished = false`. -/
def discover_loop (resp : Nat → TransportResult) (maxFail : Nat) :
    Nat → DiscState → DiscState
  | 0, s => s
  | fuel + 1, s =>
    if s.consecFail < maxFail then
      discover_loop resp maxFail fuel (discover_step resp s)
    else
      { s with finished := true }

/-- `discover_all_datasets(start_from, max_consecutive_failures)`. -/
def discover_all_datasets (resp : Nat → TransportResult) (startFrom maxFail fuel : Nat) :
    DiscState :=
  discover_loop resp maxFail fuel ⟨startFrom, 0, [], false⟩

/-- The source's `response.status_code == 200` test after the `None`
check: does this probe confirm the dataset? -/
def probe_ok (r : TransportResult) : Bool :=
  match make_request r with
  | some (st, _) => st == 200
  | none => false

/-! ## Downloader (`_verify_pdf`, `download_file`) -/

/-- The on-disk archive tree: content stored per (dataset id, name). -/
abbrev Disk := List (FilePath' × List Nat)

/-- The 5 magic bytes b'%PDF-'. -/
def pdfMagic : List Nat := [37, 80, 68, 70, 45]

/-- `_verify_pdf` applied to known content: `f.read(5) == b'%PDF-'`. -/
def verify_pdf_bytes (content : List Nat) : Bool :=
  content.take 5 = pdfMagic

/-- MD5 is opaque to every claim; `_calculate_checksum` is modelled as
an injective content-determined digest. -/
def calculate_checksum (content : List Nat) : String :=
  toString content

/-- What the transport does for the file request of one
`download_file` call: `noResponse` is `_make_request` returning `None`
(403 / timeout / network error), `resp` a streamed response, and
`streamFail` an exception raised mid-stream after `partBody` was
written to the temp file. -/
inductive FetchOutcome where
  | noResponse
  | resp (status : Nat) (body : List Nat)
  | streamFail (partBody : List Nat) (msg : String)
deriving DecidableEq, Repr

/-- The environment of a single `download_file` call. -/
structure DlEnv where
  fetch : FetchOutcome
  now : Nat
deriving Repr

/-- Result of `download_file`: the updated record, the updated disk,
the deltas applied to the three aggregate counters, and the returned
`(bool, path)` pair. -/
structure DlResult where
  meta : FileMetadata
  disk : Disk
  dDownloaded : Nat
  dFailed : Nat
  dSkipped : Nat
  okFlag : Bool
  retPath : Option FilePath'
deriving Repr

/-- The fetch-and-verify part of `download_file` (everything after the
two local-file guards). -/
def download_fetch (m : FileMetadata) (disk : Disk) (env : DlEnv) : DlResult :=
  let m1 : FileMetadata :=
    { m with
        download_attempts := m.download_attempts + 1
        last_checked := some env.now }
  let tmpKey : FilePath' := (m.dataset, m.filename ++ ".tmp")
  let localKey : FilePath' := (m.dataset, m.filename)
  match env.fetch with
  | .noResponse =>
    ⟨{ m1 with last_error := some "HTTP Blocked", status := .failed },
      disk, 0, 1, 0, false, none⟩
  | .resp status body =>
    if status ≠ 200 then
      ⟨{ m1 with last_error := some ("HTTP " ++ toString status), status := .failed },
        disk, 0, 1, 0, false, none⟩
    else
      -- body streamed into the temp file
      let disk1 := aput tmpKey body disk
      if ¬ verify_pdf_bytes body then
        ⟨{ m1 with last_error := some "Invalid PDF", status := .failed },
          aerase tmpKey disk1, 0, 1, 0, false, none⟩
      else if body.length < 1024 then
        ⟨{ m1 with last_error := some "File too small", status := .failed },
          aerase tmpKey disk1, 0, 1, 0, false, none⟩
      else
        -- temp_path.rename(final_path)
        let disk2 := aput localKey body (aerase tmpKey disk1)
        ⟨{ m1 with
             status := .success
             download_path := some localKey
             file_size := some body.length
             checksum := some (calculate_checksum body)
             downloaded_at := some env.now
             last_error := none },
          disk2, 1, 0, 0, true, some localKey⟩
  | .streamFail partBody msg =>
    ⟨{ m1 with last_error := some msg, status := .failed },
      aerase tmpKey (aput tmpKey partBody disk), 0, 1, 0, false, none⟩

/-- `Path(p).exists()` for a possibly-absent stored path. -/
def path_exists (p : Option FilePath') (disk : Disk) : Bool :=
  match p with
  | some p' => (alookup p' disk).isSome
  | none => false

/-- `download_file`: the two guarded exits (already downloaded; local
file verifying in place) followed by the fetch. -/
def download_file (m : FileMetadata) (disk : Disk) (env : DlEnv) : DlResult :=
  -- guard 1: status Success and download_path exists on disk
  if m.status = .success ∧ path_exists m.download_path disk then
    ⟨m, disk, 0, 0, 0, false, m.download_path⟩
  else
    -- guard 2: a file with the expected name already exists locally
    match alookup (m.dataset, m.filename) disk with
    | some content =>
      if verify_pdf_bytes content then
        ⟨{ m with
             status := .success
             download_path := some (m.dataset, m.filename)
             file_size := some content.length
             checksum := some (calculate_checksum content)
             downloaded_at := some env.now },
          disk, 0, 0, 1, false, some (m.dataset, m.filename)⟩
      else download_fetch m disk env
    | none => download_fetch m disk env

/-! ## Cache-store mutations -/

/-- The `FileMetadata(...)` constructed by `_extract_file_links`. -/
def mkMeta (l : Link) (ds now : Nat) : FileMetadata :=
  { url := l.url, filename := l.filename, dataset := ds, discovered_at := now }

/-- The merge part of `discover_dataset_pages` (source lines 423-451):
global URL dedup, re-stamp of already-known records with
`last_checked`, insertion of the new records with one
`total_discovered` increment each, and recording the dataset id in
`datasets_scanned`. Returns the state plus the new links (the
function's return value). -/
def merge_walk (c : CacheState) (ds : Nat) (links : List Link) (now : Nat) :
    CacheState × List Link :=
  let uniq := dedupLinks [] links
  let newLinks := uniq.filter fun l => (alookup l.url c.files).isNone
  let restamped := c.files.map fun p =>
    if uniq.any fun l => l.url = p.1 then
      (p.1, { p.2 with last_checked := some now })
    else p
  let files' := newLinks.foldl (fun fs l => (l.url, mkMeta l ds now) :: fs) restamped
  ({ c with
       files := files'
       total_discovered := c.total_discovered + newLinks.length
       datasets_scanned :=
         if ds ∈ c.datasets_scanned then c.datasets_scanned
         else ds :: c.datasets_scanned },
    newLinks)

/-- `download_file` seen as a cache mutation: the record stored at
`url` is updated in place and the counter deltas applied (the source
mutates the very objects held by `cache.files`). -/
def download_update (c : CacheState) (url : String) (disk : Disk) (env : DlEnv) :
    CacheState × Disk :=
  match alookup url c.files with
  | none => (c, disk)
  | some m =>
    let r := download_file m disk env
    ({ c with
         files := aupdate url r.meta c.files
         total_downloaded := c.total_downloaded + r.dDownloaded
         total_failed := c.total_failed + r.dFailed
         total_skipped := c.total_skipped + r.dSkipped },
      r.disk)

/-- The cache-clearing part of `cleanup_all` (source lines 812-819). -/
def cleanup_cache (c : CacheState) : CacheState :=
  { c with
      files := []
      datasets_scanned := []
      max_dataset_found := 0
      total_discovered := 0
      total_downloaded := 0
      total_failed := 0
      total_skipped := 0 }

/-- States reachable from the empty `CacheState` by the program's three
cache-mutating operations: a page-walk merge (with any link list and
tick), a download of any tracked URL (against any disk content and
fetch outcome — the filesystem is shared with previous runs and
crashes, so its content at call time is an oracle), and cleanup. -/
inductive Reach : CacheState → Prop where
  | empty (now : Nat) : Reach (CacheState.fresh now)
  | walk {c} (ds : Nat) (links : List Link) (now : Nat) :
      Reach c → Reach (merge_walk c ds links now).1
  | download {c} (url : String) (disk : Disk) (env : DlEnv) :
      Reach c → Reach (download_update c url disk env).1
  | cleanup {c} : Reach c → Reach (cleanup_cache c)

/-- Number of tracked records with a given status. -/
def statusCount (st : DownloadStatus) : List (String × FileMetadata) → Nat
  | [] => 0
  | p :: t => (if p.2.status = st then 1 else 0) + statusCount st t

/-! ## Cache store load (`_load_cache`, `CacheState.from_dict`) -/

/-- `DownloadStatus(value)`: `none` models the `ValueError` raised on
an unknown status string. -/
def statusOfString : String → Option DownloadStatus
  | "pending" => some .pending
  | "success" => some .success
  | "failed" => some .failed
  | "skipped" => some .skipped
  | _ => none

/-- One serialized file record, as found in the persisted document. -/
structure FileDoc where
  url : String
  filename : String
  dataset : Nat
  discovered_at : Nat
  last_checked : Option Nat := none
  status : String := "pending"
  download_path : Option FilePath' := none
  file_size : Option Nat := none
  checksum : Option String := none
  download_attempts : Nat := 0
  last_error : Option String := none
  downloaded_at : Option Nat := none
deriving DecidableEq, Repr

/-- `FileMetadata.from_dict`: fails (raises) on an invalid status. -/
def FileMetadata.fromDoc (d : FileDoc) : Option FileMetadata :=
  (statusOfString d.status).map fun st =>
    { url := d.url, filename := d.filename, dataset := d.dataset
      discovered_at := d.discovered_at, last_checked := d.last_checked
      status := st, download_path := d.download_path
      file_size := d.file_size, checksum := d.checksum
      download_attempts := d.download_attempts
      last_error := d.last_error, downloaded_at := d.downloaded_at }

/-- The top-level persisted document, with the `.get` defaults of
`CacheState.from_dict`. -/
structure CacheDoc where
  version : String := "2.0"
  created_at : Nat := 0
  last_updated : Nat := 0
  files : List (String × FileDoc) := []
  datasets_scanned : List Nat := []
  max_dataset_found : Nat := 0
  total_discovered : Nat := 0
  total_downloaded : Nat := 0
  total_failed : Nat := 0
  total_skipped : Nat := 0
deriving DecidableEq, Repr

/-- Rebuild the files map; `none` as soon as one record fails. -/
def filesFromDocs : List (String × FileDoc) → Option (List (String × FileMetadata))
  | [] => some []
  | (u, d) :: t =>
    match FileMetadata.fromDoc d, filesFromDocs t with
    | some m, some t' => some ((u, m) :: t')
    | _, _ => none

/-- `CacheState.from_dict`: `none` models the exception path. -/
def CacheState.fromDoc (d : CacheDoc) : Option CacheState :=
  (filesFromDocs d.files).map fun fs =>
    { version := d.version, created_at := d.created_at
      last_updated := d.last_updated, files := fs
      datasets_scanned := d.datasets_scanned
      max_dataset_found := d.max_dataset_found
      total_discovered := d.total_discovered
      total_downloaded := d.total_downloaded
      total_failed := d.total_failed
      total_skipped := d.total_skipped }

/-- What is found on disk when `_load_cache` runs: no file at all, a
file whose text `json.load` cannot parse, or a parsed document. -/
inductive PersistedState where
  | absent
  | corruptText
  | doc (d : CacheDoc)
deriving Repr

/-- `_load_cache`: missing file and every exception (unparseable text,
`from_dict` raising) fall back — with a logged warning — to a fresh
`CacheState()`; a cleanly parsed document is rebuilt. -/
def load_cache (now : Nat) : PersistedState → CacheState
  | .absent => CacheState.fresh now
  | .corruptText => CacheState.fresh now
  | .doc d =>
    match CacheState.fromDoc d with
    | some c => c
    | none => CacheState.fresh now

/-! ## Run controller (`main`, `discover_and_process_all`) -/

/-- Observable effects of `main`'s top-level exception handling. -/
inductive MainEffect where
  | printMsg (msg : String)
  | saveCache
  | exitCode (code : Nat)
deriving DecidableEq, Repr

/-- The body of `except KeyboardInterrupt:` in `main` (source lines
921-923): two prints, nothing else. -/
def interrupt_handler_effects : List MainEffect :=
  [.printMsg "Process interrupted by user",
   .printMsg "Cache has been saved"]

/-- Per-dataset step of `discover_and_process_all` /
`process_dataset`: walk all pages of `ds`, merge into the cache, then
(if downloading) call `download_file` on each new record. The
accumulator carries the cache, the disk, the number of new records
added so far this run, and the number of `download_file` calls made so
far this run. `env` supplies each file URL's download environment. -/
def process_dataset (resp : Nat → Nat → TransportResult) (env : String → DlEnv)
    (download : Bool) (now : Nat)
    (acc : CacheState × Disk × Nat × Nat) (ds : Nat) :
    CacheState × Disk × Nat × Nat :=
  let collected := (walk_run (resp ds)).allFiles
  let merged := merge_walk acc.1 ds collected now
  if download then
    let folded := merged.2.foldl
      (fun (p : CacheState × Disk) l => download_update p.1 l.url p.2 (env l.url))
      (merged.1, acc.2.1)
    (folded.1, folded.2, acc.2.2.1 + merged.2.length, acc.2.2.2 + merged.2.length)
  else
    (merged.1, acc.2.1, acc.2.2.1 + merged.2.length, acc.2.2.2)

/-- One full `discover_and_process_all(start, download)` run over a
fixed server (`resp ds page`; the dataset probe hits the page-0 URL),
starting from a given cache and disk. Returns the final cache and
disk, the number of new records added, and the number of
`download_file` calls made. -/
def discover_and_process_all (resp : Nat → Nat → TransportResult)
    (env : String → DlEnv) (startFrom fuel : Nat) (download : Bool) (now : Nat)
    (c : CacheState) (disk : Disk) : CacheState × Disk × Nat × Nat :=
  let datasets := (discover_all_datasets (fun ds => resp ds 0) startFrom 10 fuel).found
  datasets.foldl (process_dataset resp env download now) (c, disk, 0, 0)

/-! ## Concrete instances used by the claim theorems -/

/-- A PDF-magic-headed file of 6 bytes — far below the 1024-byte floor. -/
def tinyPdf : List Nat := pdfMagic ++ [48]

/-- A body that is not a PDF at all. -/
def notAPdf : List Nat := [1, 2, 3]

/-- A well-formed PDF body above the size floor. -/
def bigPdf : List Nat := pdfMagic ++ List.replicate 1020 32

/-- Record for a single just-discovered file. -/
def c1Meta : FileMetadata := mkMeta ⟨"u1", "doc.pdf"⟩ 1 0

/-- A disk already holding a tiny magic-headed `doc.pdf` in dataset 1. -/
def c1Disk : Disk := [((1, "doc.pdf"), tinyPdf)]

/-- Download environment whose fetch is never reached / always blocked. -/
def envBlocked : DlEnv := ⟨.noResponse, 7⟩

/-- Download environment serving a non-PDF body with HTTP 200. -/
def envBadBody : DlEnv := ⟨.resp 200 notAPdf, 7⟩

/-- Server for the C2 scenario: pages 0, 1 and 5 non-empty, pages 2-4
(and beyond 5) empty, all HTTP 200. -/
def resp6 : Nat → TransportResult := fun p =>
  if p = 0 ∨ p = 1 ∨ p = 5 then
    .response 200 [⟨"u" ++ toString p, "f.pdf"⟩]
  else .response 200 []

/-- Server for the C3 scenario: datasets 1-3 exist, everything else 404. -/
def resp3 : Nat → TransportResult := fun n =>
  if 1 ≤ n ∧ n ≤ 3 then .response 200 [] else .response 404 []

/-- Server for the C4 scenario: page 0 non-empty, page 1 times out,
page 2 non-empty again. -/
def respT : Nat → TransportResult := fun p =>
  if p = 0 then .response 200 [⟨"u0", "a.pdf"⟩]
  else if p = 1 then .timeout
  else .response 200 [⟨"u2", "b.pdf"⟩]

/-- A server that confirms every dataset id (HTTP 200 forever). -/
def respAllOk : Nat → TransportResult := fun _ => .response 200 []

/-- A server on which every dataset probe is a 404. -/
def respAll404 : Nat → TransportResult := fun _ => .response 404 []

/-- A persisted document with a corrupted status string. -/
def badDoc : CacheDoc :=
  { files := [("u1", { url := "u1", filename := "doc.pdf", dataset := 1,
                       discovered_at := 0, status := "corrupted" })] }

/-- A well-formed persisted document with one pending record. -/
def goodDoc : CacheDoc :=
  { files := [("u1", { url := "u1", filename := "doc.pdf", dataset := 1,
                       discovered_at := 0 })],
    total_discovered := 1 }

/-- Server for the C6 witness: dataset 1 exists with one file on page
0, all other probes and pages are 404. -/
def respW : Nat → Nat → TransportResult := fun ds p =>
  if ds = 1 then
    (if p = 0 then .response 200 [⟨"u1", "doc.pdf"⟩] else .response 404 [])
  else .response 404 []

/-- Download environment function for the C6 witness: every fetch is
blocked, so the single discovered file simply fails on run 1. -/
def envW : String → DlEnv := fun _ => ⟨.noResponse, 3⟩

/-! ## Association-list lemmas -/

theorem alookup_aerase_self {α β : Type} [DecidableEq α] (k : α) (l : List (α × β)) :
    alookup k (aerase k l) = none := by
  induction l with
  | nil => rfl
  | cons p t ih =>
    obtain ⟨a, b⟩ := p
    by_cases h : a = k
    · simpa [aerase, alookup, h] using ih
    · simpa [aerase, alookup, h] using ih

theorem alookup_aerase_ne {α β : Type} [DecidableEq α] {k j : α} (h : k ≠ j)
    (l : List (α × β)) : alookup j (aerase k l) = alookup j l := by
  induction l with
  | nil => rfl
  | cons p t ih =>
    obtain ⟨a, b⟩ := p
    by_cases hp : a = k
    · subst hp
      simpa [aerase, alookup, h] using ih
    · by_cases hj : a = j
      · subst hj
        simp [aerase, alookup, hp, alookup, Ne.symm h]
      · simpa [aerase, alookup, hp, hj] using ih

theorem alookup_aput_self {α β : Type} [DecidableEq α] (k : α) (v : β)
    (l : List (α × β)) : alookup k (aput k v l) = some v := by
  simp [aput, alookup]

theorem alookup_aput_ne {α β : Type} [DecidableEq α] {k j : α} (h : k ≠ j) (v : β)
    (l : List (α × β)) : alookup j (aput k v l) = alookup j l := by
  simp [aput, alookup, h, alookup_aerase_ne h]

theorem alookup_aupdate_ne {α β : Type} [DecidableEq α] {k j : α} (h : k ≠ j) (v : β)
    (l : List (α × β)) : alookup j (aupdate k v l) = alookup j l := by
  induction l with
  | nil => rfl
  | cons p t ih =>
    obtain ⟨a, b⟩ := p
    by_cases hp : a = k
    · subst hp
      simpa [aupdate, alookup, h, Ne.symm h] using ih
    · by_cases hj : a = j
      · subst hj
        simp [aupdate, alookup, hp, Ne.symm h]
      · simpa [aupdate, alookup, hp, hj] using ih

theorem alookup_aupdate_self {α β : Type} [DecidableEq α] {k : α} {v₀ : β}
    (l : List (α × β)) (h : alookup k l = some v₀) (v : β) :
    alookup k (aupdate k v l) = some v := by
  induction l with
  | nil => simp [alookup] at h
  | cons p t ih =>
    obtain ⟨a, b⟩ := p
    by_cases hp : a = k
    · simp [aupdate, alookup, hp]
    · simp only [alookup, hp, if_false] at h
      simpa [aupdate, alookup, hp] using ih h

theorem alookup_aupdate_none {α β : Type} [DecidableEq α] {k : α}
    (l : List (α × β)) (h : alookup k l = none) (v : β) :
    alookup k (aupdate k v l) = none := by
  induction l with
  | nil => rfl
  | cons p t ih =>
    obtain ⟨a, b⟩ := p
    by_cases hp : a = k
    · simp [alookup, hp] at h
    · simp only [alookup, hp, if_false] at h
      simpa [aupdate, alookup, hp] using ih h

theorem aupdate_length {α β : Type} [DecidableEq α] (k : α) (v : β)
    (l : List (α × β)) : (aupdate k v l).length = l.length := by
  induction l with
  | nil => rfl
  | cons p t ih =>
    obtain ⟨a, b⟩ := p
    by_cases hp : a = k
    · simpa [aupdate, hp] using ih
    · simpa [aupdate, hp] using ih

theorem aupdate_keys {α β : Type} [DecidableEq α] (k : α) (v : β)
    (l : List (α × β)) : (aupdate k v l).map Prod.fst = l.map Prod.fst := by
  induction l with
  | nil => rfl
  | cons p t ih =>
    obtain ⟨a, b⟩ := p
    by_cases hp : a = k
    · subst hp
      simpa [aupdate] using ih
    · simpa [aupdate, hp] using ih

theorem alookup_isSome_aupdate {α β : Type} [DecidableEq α] (k j : α) (v : β)
    (l : List (α × β)) :
    (alookup j (aupdate k v l)).isSome = (alookup j l).isSome := by
  by_cases h : k = j
  · subst h
    cases hl : alookup k l with
    | none => simp [alookup_aupdate_none l hl v, hl]
    | some v₀ => simp [alookup_aupdate_self l hl v, hl]
  · simp [alookup_aupdate_ne h]

/-! ## C8 — interrupt handling -/

/-- C8: the claim says an external interrupt triggers `save(state)`
synchronously before exit. The `except KeyboardInterrupt:` handler in
`main` (lines 921-923) only prints — among them the message
"Cache has been saved" — and performs no save, so mutations since the
last periodic save are lost. This theorem evaluates the handler: no
save effect occurs in it. -/
theorem spec_c8_interrupt_no_save :
    MainEffect.saveCache ∉ interrupt_handler_effects := by
  decide

/-! ## C9 — tolerant cache load -/

/-- C9: `_load_cache` never aborts: a missing state file and an
unparseable one both yield a fresh empty `CacheState`, and a cleanly
parsed document is rebuilt as-is. -/
theorem spec_c9_load_tolerant (now : Nat) :
    load_cache now .absent = CacheState.fresh now ∧
    load_cache now .corruptText = CacheState.fresh now ∧
    (∀ d : CacheDoc, CacheState.fromDoc d = none →
      load_cache now (.doc d) = CacheState.fresh now) ∧
    (∀ (d : CacheDoc) (c : CacheState), CacheState.fromDoc d = some c →
      load_cache now (.doc d) = c) := by
  refine ⟨rfl, rfl, ?_, ?_⟩
  · intro d h
    simp [load_cache, h]
  · intro d c h
    simp [load_cache, h]

/-- Witness for C9: a document with a corrupted status string loads as
a fresh state, and a good document loads as its own contents. -/
theorem spec_c9_load_tolerant_witness :
    load_cache 5 (.doc badDoc) = CacheState.fresh 5 ∧
    load_cache 5 (.doc goodDoc) =
      { files := [("u1", mkMeta ⟨"u1", "doc.pdf"⟩ 1 0)], total_discovered := 1 } := by
  constructor
  · exact (spec_c9_load_tolerant 5).2.2.1 badDoc (by decide)
  · exact (spec_c9_load_tolerant 5).2.2.2 goodDoc _ (by decide)

/-! ## C4 — transient transport errors during the page walk -/

/-- C4: the claim (and the spec's error taxonomy) say a Timeout or
NetworkError on a page increments the consecutive-empty counter and
the walk continues. In the code, `_make_request` returns `None` for
timeout and network error exactly as for 403, and
`discover_dataset_pages` treats `None` as "blocked" and breaks. On the
failing input (page 0 non-empty, page 1 timeout, page 2 non-empty) the
walk requests only pages 0 and 1, never reaches page 2, and stops with
the empty counter still 0. -/
theorem spec_c4_timeout_stops_walk :
    make_request .timeout = none ∧
    make_request .netError = none ∧
    make_request .forbidden = none ∧
    (walk_run respT).requested = [0, 1] ∧
    (walk_run respT).consecEmpty = 0 := by
  refine ⟨rfl, rfl, rfl, ?_, ?_⟩ <;> decide

/-! ## C2 — page-walk empty-page counting and stopping -/

/-- C2: an `Ok` page with zero extracted links increments the
consecutive-empty counter, a page with at least one link resets it to
0, the loop makes no further request once the counter has reached 3,
and on the non-empty, non-empty, empty, empty, empty, non-empty server
the walk requests exactly pages 0-4 — never the trailing non-empty
page 5. -/
theorem spec_c2_empty_page_stopping :
    (∀ (resp : Nat → TransportResult) (s : WalkState),
      make_request (resp s.page) = some (200, []) →
      walk_step resp s = .cont { s with
        page := s.page + 1
        consecEmpty := s.consecEmpty + 1
        requested := s.requested ++ [s.page] }) ∧
    (∀ (resp : Nat → TransportResult) (s : WalkState) (links : List Link),
      make_request (resp s.page) = some (200, links) → links ≠ [] →
      walk_step resp s = .cont { s with
        page := s.page + 1
        consecEmpty := 0
        allFiles := s.allFiles ++ dedupLinks [] links
        requested := s.requested ++ [s.page] }) ∧
    (∀ (resp : Nat → TransportResult) (fuel : Nat) (s : WalkState),
      3 ≤ s.consecEmpty → walk_loop resp 1000 3 fuel s = s) ∧
    (walk_run resp6).requested = [0, 1, 2, 3, 4] ∧
    5 ∉ (walk_run resp6).requested := by
  refine ⟨?_, ?_, ?_, by decide, by decide⟩
  · intro resp s h
    simp [walk_step, h]
  · intro resp s links h hne
    simp [walk_step, h, hne]
  · intro resp fuel s h
    cases fuel with
    | zero => rfl
    | succ n =>
      have : ¬ (s.page < 1000 ∧ s.consecEmpty < 3) := by omega
      simp [walk_loop, this]

/-- Witness for C2: the step equations instantiated on concrete empty
and non-empty pages, and the stopped loop instantiated at counter 3. -/
theorem spec_c2_empty_page_stopping_witness :
    walk_step (fun _ => .response 200 []) ⟨0, 0, [], []⟩ =
      .cont ⟨1, 1, [], [0]⟩ ∧
    walk_step (fun _ => .response 200 [⟨"u", "f.pdf"⟩]) ⟨0, 2, [], []⟩ =
      .cont ⟨1, 0, [⟨"u", "f.pdf"⟩], [0]⟩ ∧
    walk_loop (fun _ => .response 200 []) 1000 3 50 ⟨4, 3, [], [1, 2, 3]⟩ =
      ⟨4, 3, [], [1, 2, 3]⟩ := by
  refine ⟨?_, ?_, ?_⟩
  · exact spec_c2_empty_page_stopping.1 (fun _ => .response 200 []) ⟨0, 0, [], []⟩ rfl
  · exact spec_c2_empty_page_stopping.2.1 (fun _ => .response 200 [⟨"u", "f.pdf"⟩])
      ⟨0, 2, [], []⟩ [⟨"u", "f.pdf"⟩] rfl (by decide)
  · exact spec_c2_empty_page_stopping.2.2.1 (fun _ => .response 200 []) 50
      ⟨4, 3, [], [1, 2, 3]⟩ (by decide)

/-! ## C3 — dataset discovery -/

theorem discover_step_found_lt (resp : Nat → TransportResult) (s : DiscState)
    (h : ∀ x ∈ s.found, x < s.current) :
    ∀ x ∈ (discover_step resp s).found, x < (discover_step resp s).current := by
  unfold discover_step
  cases hm : make_request (resp s.current) with
  | none =>
    intro x hx
    exact Nat.lt_succ_of_lt (h x hx)
  | some p =>
    obtain ⟨st, l⟩ := p
    dsimp only
    by_cases hst : st = 200
    · rw [if_pos hst]
      intro x hx
      rcases List.mem_append.mp hx with hx' | hx'
      · exact Nat.lt_succ_of_lt (h x hx')
      · simp at hx'
        subst hx'
        exact Nat.lt_succ_self _
    · rw [if_neg hst]
      intro x hx
      exact Nat.lt_succ_of_lt (h x hx)

theorem discover_step_pairwise (resp : Nat → TransportResult) (s : DiscState)
    (h : ∀ x ∈ s.found, x < s.current) (hp : s.found.Pairwise (· < ·)) :
    (discover_step resp s).found.Pairwise (· < ·) := by
  unfold discover_step
  cases hm : make_request (resp s.current) with
  | none => exact hp
  | some p =>
    obtain ⟨st, l⟩ := p
    dsimp only
    by_cases hst : st = 200
    · rw [if_pos hst]
      rw [List.pairwise_append]
      refine ⟨hp, List.pairwise_singleton _ _, ?_⟩
      intro a ha b hb
      simp at hb
      subst hb
      exact h a ha
    · simpa only [if_neg hst] using hp

theorem discover_loop_inv (resp : Nat → TransportResult) (maxFail : Nat) :
    ∀ (fuel : Nat) (s : DiscState), (∀ x ∈ s.found, x < s.current) →
      s.found.Pairwise (· < ·) →
      (discover_loop resp maxFail fuel s).found.Pairwise (· < ·) := by
  intro fuel
  induction fuel with
  | zero => intro s _ hp; exact hp
  | succ n ih =>
    intro s h hp
    unfold discover_loop
    by_cases hc : s.consecFail < maxFail
    · rw [if_pos hc]
      exact ih _ (discover_step_found_lt resp s h)
        (discover_step_pairwise resp s h hp)
    · rw [if_neg hc]
      exact hp

/-- C3: for every start id and server, the discovered dataset list is
strictly ascending; the probe loop resets the consecutive-failure
counter and appends the id on HTTP 200, increments the counter on
`None` (blocked / timeout / network error) and on every non-200
status; and on the concrete server where datasets 1-3 exist and
4 onward are 404, discovery from 1 with threshold 10 stops through its
own condition having found exactly `[1, 2, 3]`. -/
theorem spec_c3_discovery :
    (∀ (resp : Nat → TransportResult) (startFrom maxFail fuel : Nat),
      (discover_all_datasets resp startFrom maxFail fuel).found.Pairwise (· < ·)) ∧
    (∀ (resp : Nat → TransportResult) (s : DiscState) (links : List Link),
      make_request (resp s.current) = some (200, links) →
      discover_step resp s = { s with
        found := s.found ++ [s.current]
        consecFail := 0
        current := s.current + 1 }) ∧
    (∀ (resp : Nat → TransportResult) (s : DiscState),
      make_request (resp s.current) = none →
      discover_step resp s = { s with
        consecFail := s.consecFail + 1
        current := s.current + 1 }) ∧
    (∀ (resp : Nat → TransportResult) (s : DiscState) (st : Nat) (links : List Link),
      make_request (resp s.current) = some (st, links) → st ≠ 200 →
      discover_step resp s = { s with
        consecFail := s.consecFail + 1
        current := s.current + 1 }) ∧
    (discover_all_datasets resp3 1 10 100).found = [1, 2, 3] ∧
    (discover_all_datasets resp3 1 10 100).finished = true := by
  refine ⟨?_, ?_, ?_, ?_, by decide, by decide⟩
  · intro resp startFrom maxFail fuel
    exact discover_loop_inv resp maxFail fuel ⟨startFrom, 0, [], false⟩
      (by intro x hx; simp at hx) (List.Pairwise.nil)
  · intro resp s links h
    simp [discover_step, h]
  · intro resp s h
    simp [discover_step, h]
  · intro resp s st links h hst
    simp [discover_step, h, hst]

/-- Witness for C3: the general parts instantiated on concrete servers
and states. -/
theorem spec_c3_discovery_witness :
    (discover_all_datasets respAll404 1 10 20).found.Pairwise (· < ·) ∧
    discover_step respAllOk ⟨4, 2, [1], false⟩ = ⟨5, 0, [1, 4], false⟩ ∧
    discover_step (fun _ => .timeout) ⟨4, 2, [1], false⟩ = ⟨5, 3, [1], false⟩ ∧
    discover_step respAll404 ⟨4, 2, [1], false⟩ = ⟨5, 3, [1], false⟩ := by
  refine ⟨?_, ?_, ?_, ?_⟩
  · exact spec_c3_discovery.1 respAll404 1 10 20
  · exact spec_c3_discovery.2.1 respAllOk ⟨4, 2, [1], false⟩ [] rfl
  · exact spec_c3_discovery.2.2.1 (fun _ => .timeout) ⟨4, 2, [1], false⟩ rfl
  · exact spec_c3_discovery.2.2.2.1 respAll404 ⟨4, 2, [1], false⟩ 404 [] rfl
      (by decide)

/-! ## C1 — download verification -/

theorem tmp_key_ne (d : Nat) (s : String) :
    ((d, s ++ ".tmp") : FilePath') ≠ (d, s) := by
  intro h
  have h2 : s ++ ".tmp" = s := congrArg Prod.snd h
  have h3 : s.length + ".tmp".length = s.length := by
    rw [← String.length_append, h2]
  have h4 : (".tmp" : String).length = 4 := by decide
  omega

/-- C1 counterexample: the claim says both verification checks must
pass for files verified in place as well, so a sub-floor file may
never reach Success. But on a pending record whose final file already
exists on disk with valid magic bytes and only 6 bytes of content,
`download_file` promotes the record to Success (through the
`total_skipped` path) without ever checking the 1024-byte floor. -/
theorem spec_c1_counterexample :
    tinyPdf.length < 1024 ∧
    (download_file c1Meta c1Disk envBlocked).meta.status = DownloadStatus.success ∧
    (download_file c1Meta c1Disk envBlocked).dSkipped = 1 := by
  refine ⟨by decide, by decide, by decide⟩

/-- C1 amended: for a fresh fetch (no local file with the expected
name), a 200 body failing the magic check or the 1024-byte floor is
never promoted to Success — the record is marked Failed, nothing is
downloaded, and neither the `.tmp` file nor a final file remains on
disk. In-place verification (step 2), however, applies only the
magic-byte check: a pre-existing local file with valid magic bytes is
promoted to Success regardless of its size, leaving the disk
untouched. -/
theorem spec_c1_download_integrity :
    (∀ (m : FileMetadata) (disk : Disk) (env : DlEnv) (body : List Nat),
      m.status ≠ .success →
      alookup (m.dataset, m.filename) disk = none →
      env.fetch = .resp 200 body →
      (verify_pdf_bytes body = false ∨ body.length < 1024) →
      (download_file m disk env).meta.status = .failed ∧
      (download_file m disk env).dDownloaded = 0 ∧
      (download_file m disk env).okFlag = false ∧
      alookup (m.dataset, m.filename ++ ".tmp") (download_file m disk env).disk
        = none ∧
      alookup (m.dataset, m.filename) (download_file m disk env).disk = none) ∧
    (∀ (m : FileMetadata) (disk : Disk) (env : DlEnv) (content : List Nat),
      m.status ≠ .success →
      alookup (m.dataset, m.filename) disk = some content →
      verify_pdf_bytes content = true →
      (download_file m disk env).meta.status = .success ∧
      (download_file m disk env).disk = disk) := by
  constructor
  · intro m disk env body h0 h1 h2 h3
    have hne := tmp_key_ne m.dataset m.filename
    by_cases hv : verify_pdf_bytes body
    · have hlen : body.length < 1024 := by
        rcases h3 with h | h
        · rw [hv] at h
          cases h
        · exact h
      refine ⟨?_, ?_, ?_, ?_, ?_⟩ <;>
        simp [download_file, download_fetch, h0, h1, h2, hv, hlen,
          alookup_aerase_self, alookup_aerase_ne hne, alookup_aput_ne hne]
    · have hv' : verify_pdf_bytes body = false := by
        simpa using hv
      refine ⟨?_, ?_, ?_, ?_, ?_⟩ <;>
        simp [download_file, download_fetch, h0, h1, h2, hv',
          alookup_aerase_self, alookup_aerase_ne hne, alookup_aput_ne hne]
  · intro m disk env content h0 h1 hv
    refine ⟨?_, ?_⟩ <;> simp [download_file, h0, h1, hv]

/-- Witness for C1 amended: a fresh fetch of a non-PDF body fails and
leaves no file; a tiny magic-headed local file is promoted in place. -/
theorem spec_c1_download_integrity_witness :
    ((download_file (mkMeta ⟨"u2", "x.pdf"⟩ 1 0) [] envBadBody).meta.status
        = DownloadStatus.failed ∧
      alookup (1, "x.pdf.tmp")
        (download_file (mkMeta ⟨"u2", "x.pdf"⟩ 1 0) [] envBadBody).disk = none) ∧
    (download_file c1Meta c1Disk envBlocked).meta.status
        = DownloadStatus.success := by
  have hA := spec_c1_download_integrity.1 (mkMeta ⟨"u2", "x.pdf"⟩ 1 0) []
    envBadBody notAPdf (by decide) rfl rfl (Or.inl (by decide))
  have hB := spec_c1_download_integrity.2 c1Meta c1Disk envBlocked tinyPdf
    (by decide) (by decide) (by decide)
  exact ⟨⟨hA.1, hA.2.2.2.1⟩, hB.1⟩

/-! ## C7 — termination -/

theorem walk_step_cases (resp : Nat → TransportResult) (s : WalkState) :
    (∃ s', walk_step resp s = .cont s' ∧ s'.page = s.page + 1 ∧
      s'.requested = s.requested ++ [s.page]) ∨
    (∃ s', walk_step resp s = .stop s' ∧
      s'.requested = s.requested ++ [s.page]) := by
  unfold walk_step
  cases hm : make_request (resp s.page) with
  | none => exact Or.inr ⟨_, rfl, rfl⟩
  | some p =>
    obtain ⟨st, l⟩ := p
    dsimp only
    by_cases h2 : st = 200
    · rw [if_pos h2]
      by_cases h3 : l ≠ []
      · rw [if_pos h3]
        exact Or.inl ⟨_, rfl, rfl, rfl⟩
      · rw [if_neg h3]
        exact Or.inl ⟨_, rfl, rfl, rfl⟩
    · rw [if_neg h2]
      by_cases h4 : st = 404
      · rw [if_pos h4]
        exact Or.inr ⟨_, rfl, rfl⟩
      · rw [if_neg h4]
        exact Or.inl ⟨_, rfl, rfl, rfl⟩

theorem walk_loop_requested_le (resp : Nat → TransportResult)
    (maxPages maxEmpty : Nat) :
    ∀ (f : Nat) (s : WalkState),
      (walk_loop resp maxPages maxEmpty f s).requested.length ≤
        s.requested.length + (maxPages - s.page) := by
  intro f
  induction f with
  | zero =>
    intro s
    simp [walk_loop]
  | succ n ih =>
    intro s
    unfold walk_loop
    by_cases hc : s.page < maxPages ∧ s.consecEmpty < maxEmpty
    · rw [if_pos hc]
      rcases walk_step_cases resp s with ⟨s', he, hp, hr⟩ | ⟨s', he, hr⟩
      · rw [he]
        dsimp only
        have hih := ih s'
        rw [hp, hr] at hih
        simp only [List.length_append, List.length_cons, List.length_nil] at hih ⊢
        have := hc.1
        omega
      · rw [he]
        dsimp only
        rw [hr]
        simp only [List.length_append, List.length_cons, List.length_nil]
        have := hc.1
        omega
    · rw [if_neg hc]
      omega

theorem walk_loop_stable (resp : Nat → TransportResult) (maxPages maxEmpty : Nat) :
    ∀ (f1 : Nat) (s : WalkState) (f2 : Nat), maxPages - s.page ≤ f1 → f1 ≤ f2 →
      walk_loop resp maxPages maxEmpty f1 s = walk_loop resp maxPages maxEmpty f2 s := by
  intro f1
  induction f1 with
  | zero =>
    intro s f2 h1 _
    cases f2 with
    | zero => rfl
    | succ g =>
      have hnp : ¬ (s.page < maxPages ∧ s.consecEmpty < maxEmpty) := by
        intro hc
        omega
      simp [walk_loop, hnp]
  | succ n ih =>
    intro s f2 h1 h2
    cases f2 with
    | zero => omega
    | succ g =>
      unfold walk_loop
      by_cases hc : s.page < maxPages ∧ s.consecEmpty < maxEmpty
      · rw [if_pos hc, if_pos hc]
        rcases walk_step_cases resp s with ⟨s', he, hp, _⟩ | ⟨s', he, _⟩
        · rw [he]
          dsimp only
          apply ih
          · rw [hp]
            omega
          · omega
        · rw [he]
      · rw [if_neg hc, if_neg hc]

theorem discover_step_fail (resp : Nat → TransportResult) (s : DiscState)
    (h : probe_ok (resp s.current) = false) :
    discover_step resp s =
      { s with consecFail := s.consecFail + 1, current := s.current + 1 } := by
  unfold discover_step
  unfold probe_ok at h
  cases hm : make_request (resp s.current) with
  | none => rfl
  | some p =>
    obtain ⟨st, l⟩ := p
    rw [hm] at h
    dsimp only at h ⊢
    have hst : st ≠ 200 := by
      intro hx
      rw [hx] at h
      simp at h
    rw [if_neg hst]

theorem discover_step_consecFail_le (resp : Nat → TransportResult) (s : DiscState)
    (h : s.consecFail < 10) : (discover_step resp s).consecFail ≤ 10 := by
  unfold discover_step
  cases make_request (resp s.current) with
  | none => dsimp only; omega
  | some p =>
    obtain ⟨st, l⟩ := p
    dsimp only
    by_cases hst : st = 200
    · rw [if_pos hst]
      dsimp only
      omega
    · rw [if_neg hst]
      dsimp only
      omega

theorem discover_step_current (resp : Nat → TransportResult) (s : DiscState) :
    (discover_step resp s).current = s.current + 1 := by
  unfold discover_step
  cases make_request (resp s.current) with
  | none => rfl
  | some p =>
    obtain ⟨st, l⟩ := p
    dsimp only
    by_cases hst : st = 200
    · rw [if_pos hst]
    · rw [if_neg hst]

theorem discover_loop_finishes (resp : Nat → TransportResult) (k : Nat)
    (hf : ∀ i, k ≤ i → probe_ok (resp i) = false) :
    ∀ (f : Nat) (s : DiscState), k ≤ s.current → s.consecFail ≤ 10 →
      11 ≤ s.consecFail + f →
      (discover_loop resp 10 f s).finished = true := by
  intro f
  induction f with
  | zero =>
    intro s _ h1 h2
    omega
  | succ n ih =>
    intro s hk h1 h2
    unfold discover_loop
    by_cases hc : s.consecFail < 10
    · rw [if_pos hc]
      rw [discover_step_fail resp s (hf s.current hk)]
      refine ih _ ?_ ?_ ?_ <;> dsimp only <;> omega
    · rw [if_neg hc]

theorem discover_loop_reaches (resp : Nat → TransportResult) (k : Nat)
    (hf : ∀ i, k ≤ i → probe_ok (resp i) = false) :
    ∀ (f : Nat) (s : DiscState), s.consecFail ≤ 10 →
      (k - s.current) + 11 ≤ f →
      (discover_loop resp 10 f s).finished = true := by
  intro f
  induction f with
  | zero =>
    intro s _ h2
    omega
  | succ n ih =>
    intro s h1 h2
    by_cases hk : k ≤ s.current
    · exact discover_loop_finishes resp k hf (n + 1) s hk h1 (by omega)
    · push_neg at hk
      unfold discover_loop
      by_cases hc : s.consecFail < 10
      · rw [if_pos hc]
        apply ih
        · exact discover_step_consecFail_le resp s hc
        · rw [discover_step_current]
          omega
      · rw [if_neg hc]

theorem discover_loop_allok (f : Nat) : ∀ (s : DiscState), s.finished = false →
    s.consecFail < 10 → (discover_loop respAllOk 10 f s).finished = false := by
  induction f with
  | zero =>
    intro s h _
    exact h
  | succ n ih =>
    intro s h hc
    unfold discover_loop
    rw [if_pos hc]
    have hstep : discover_step respAllOk s =
        { s with
            found := s.found ++ [s.current]
            consecFail := 0
            current := s.current + 1 } := rfl
    rw [hstep]
    refine ih _ h ?_
    dsimp only
    decide

/-- C7 counterexample: the claim quantifies over every server response
function, but against a server that confirms every dataset id with
HTTP 200 the discovery loop never reaches its consecutive-failure
threshold: no amount of fuel makes its stopping condition fire, i.e.
`while consecutive_failures < 10` runs forever. -/
theorem spec_c7_counterexample :
    ¬ ∃ fuel, (discover_all_datasets respAllOk 1 10 fuel).finished = true := by
  rintro ⟨fuel, hfin⟩
  have h : (discover_all_datasets respAllOk 1 10 fuel).finished = false :=
    discover_loop_allok fuel ⟨1, 0, [], false⟩ rfl (by decide)
  rw [hfin] at h
  cases h

/-- C7 amended: the page walk is hard-bounded — it requests at most
1000 pages and its result is already final at fuel 1000 (the loop
terminates within the page ceiling) for every server; dataset
discovery terminates whenever all probes from some id `k` on fail
(in particular whenever only finitely many datasets exist), but not
for every server response function (see the counterexample). -/
theorem spec_c7_termination :
    (∀ resp : Nat → TransportResult,
      (walk_run resp).requested.length ≤ 1000) ∧
    (∀ (resp : Nat → TransportResult) (fuel : Nat), 1000 ≤ fuel →
      walk_loop resp 1000 3 fuel ⟨0, 0, [], []⟩ = walk_run resp) ∧
    (∀ (resp : Nat → TransportResult) (startFrom k : Nat),
      (∀ i, k ≤ i → probe_ok (resp i) = false) →
      ∃ fuel, (discover_all_datasets resp startFrom 10 fuel).finished = true) := by
  refine ⟨?_, ?_, ?_⟩
  · intro resp
    have := walk_loop_requested_le resp 1000 3 1000 ⟨0, 0, [], []⟩
    simpa [walk_run] using this
  · intro resp fuel hf
    exact (walk_loop_stable resp 1000 3 1000 ⟨0, 0, [], []⟩ fuel (by omega)
      (by omega)).symm
  · intro resp startFrom k hf
    exact ⟨(k - startFrom) + 11,
      discover_loop_reaches resp k hf ((k - startFrom) + 11)
        ⟨startFrom, 0, [], false⟩ (by dsimp only; omega) (by dsimp only; omega)⟩

/-- Witness for C7 amended: fuel-stability of the walk at fuel 1500,
and discovery terminating on the all-404 server. -/
theorem spec_c7_termination_witness :
    walk_loop respAll404 1000 3 1500 ⟨0, 0, [], []⟩ = walk_run respAll404 ∧
    ∃ fuel, (discover_all_datasets respAll404 1 10 fuel).finished = true := by
  constructor
  · exact spec_c7_termination.2.1 respAll404 1500 (by decide)
  · exact spec_c7_termination.2.2 respAll404 1 0 (fun i _ => rfl)

/-! ## Cache-store structure lemmas -/

theorem foldl_cons_eq_reverse_append {α β : Type} (g : β → α) :
    ∀ (l : List β) (init : List α),
      l.foldl (fun acc x => g x :: acc) init = (l.map g).reverse ++ init := by
  intro l
  induction l with
  | nil =>
    intro init
    rfl
  | cons x t ih =>
    intro init
    simp [List.foldl_cons, ih, List.append_assoc]

/-- The files map produced by a page-walk merge: the new entries (in
reverse insertion order) in front of the re-stamped old map. -/
theorem merge_walk_files (c : CacheState) (ds : Nat) (links : List Link) (now : Nat) :
    (merge_walk c ds links now).1.files =
      ((merge_walk c ds links now).2.map fun l => (l.url, mkMeta l ds now)).reverse ++
        (c.files.map fun p =>
          if (dedupLinks [] links).any fun l => l.url = p.1 then
            (p.1, { p.2 with last_checked := some now }) else p) := by
  simp [merge_walk, foldl_cons_eq_reverse_append]

theorem merge_walk_new (c : CacheState) (ds : Nat) (links : List Link) (now : Nat) :
    (merge_walk c ds links now).2 =
      (dedupLinks [] links).filter fun l => (alookup l.url c.files).isNone := rfl

theorem merge_walk_total_discovered (c : CacheState) (ds : Nat) (links : List Link)
    (now : Nat) :
    (merge_walk c ds links now).1.total_discovered =
      c.total_discovered + (merge_walk c ds links now).2.length := rfl

theorem merge_walk_counters (c : CacheState) (ds : Nat) (links : List Link)
    (now : Nat) :
    (merge_walk c ds links now).1.total_downloaded = c.total_downloaded ∧
    (merge_walk c ds links now).1.total_failed = c.total_failed ∧
    (merge_walk c ds links now).1.total_skipped = c.total_skipped :=
  ⟨rfl, rfl, rfl⟩

theorem map_fst_map_keep {α β : Type} (f : α × β → α × β)
    (hf : ∀ p, (f p).1 = p.1) :
    ∀ l : List (α × β), (l.map f).map Prod.fst = l.map Prod.fst := by
  intro l
  induction l with
  | nil => rfl
  | cons p t ih =>
    simp only [List.map_cons, hf]
    rw [ih]

theorem restamp_keys (uniq : List Link) (now : Nat) :
    ∀ fs : List (String × FileMetadata),
      ((fs.map fun p =>
        if uniq.any fun l => l.url = p.1 then
          (p.1, { p.2 with last_checked := some now }) else p).map Prod.fst) =
        fs.map Prod.fst := by
  intro fs
  apply map_fst_map_keep
  intro p
  by_cases hc : uniq.any fun l => l.url = p.1
  · simp [hc]
  · simp [hc]

theorem merge_walk_keys (c : CacheState) (ds : Nat) (links : List Link) (now : Nat) :
    (merge_walk c ds links now).1.files.map Prod.fst =
      ((merge_walk c ds links now).2.map Link.url).reverse ++
        c.files.map Prod.fst := by
  rw [merge_walk_files]
  rw [List.map_append, List.map_reverse, List.map_map, restamp_keys]
  rfl

theorem merge_walk_files_length (c : CacheState) (ds : Nat) (links : List Link)
    (now : Nat) :
    (merge_walk c ds links now).1.files.length =
      c.files.length + (merge_walk c ds links now).2.length := by
  have h := congrArg List.length (merge_walk_keys c ds links now)
  simp only [List.length_map, List.length_append, List.length_reverse] at h
  omega

theorem download_update_files_length (c : CacheState) (url : String) (disk : Disk)
    (env : DlEnv) :
    (download_update c url disk env).1.files.length = c.files.length := by
  unfold download_update
  cases alookup url c.files with
  | none => rfl
  | some m =>
    dsimp only
    exact aupdate_length _ _ _

theorem download_update_discovered (c : CacheState) (url : String) (disk : Disk)
    (env : DlEnv) :
    (download_update c url disk env).1.total_discovered = c.total_discovered := by
  unfold download_update
  cases alookup url c.files with
  | none => rfl
  | some m => rfl

theorem download_update_keys (c : CacheState) (url : String) (disk : Disk)
    (env : DlEnv) :
    (download_update c url disk env).1.files.map Prod.fst =
      c.files.map Prod.fst := by
  unfold download_update
  cases alookup url c.files with
  | none => rfl
  | some m =>
    dsimp only
    exact aupdate_keys _ _ _

/-! ## C10 — `total_discovered` tracks the files map -/

/-- C10: in every reachable state, `total_discovered` equals the
number of entries of the files map: the page walk increments it once
per inserted record, downloads touch neither the key set nor the
counter, and cleanup resets both together. -/
theorem spec_c10_discovered_count (c : CacheState) (h : Reach c) :
    c.total_discovered = c.files.length := by
  induction h with
  | empty now => rfl
  | walk ds links now _ ih =>
    rw [merge_walk_total_discovered, merge_walk_files_length, ih]
  | download url disk env _ ih =>
    rw [download_update_discovered, download_update_files_length, ih]
  | cleanup _ _ => rfl

/-- Witness for C10: the invariant instantiated at the reachable state
obtained by merging one discovered link into the empty state. -/
theorem spec_c10_discovered_count_witness :
    (merge_walk (CacheState.fresh 0) 1 [⟨"u1", "doc.pdf"⟩] 0).1.total_discovered =
      (merge_walk (CacheState.fresh 0) 1 [⟨"u1", "doc.pdf"⟩] 0).1.files.length :=
  spec_c10_discovered_count _ (Reach.walk 1 [⟨"u1", "doc.pdf"⟩] 0 (Reach.empty 0))

/-! ## Key-set and status-count lemmas for the reachability invariants -/

theorem alookup_eq_none_iff {α β : Type} [DecidableEq α] (k : α)
    (l : List (α × β)) : alookup k l = none ↔ k ∉ l.map Prod.fst := by
  induction l with
  | nil => simp [alookup]
  | cons p t ih =>
    obtain ⟨a, b⟩ := p
    by_cases h : a = k
    · subst h
      simp [alookup]
    · simp [alookup, h, ih, Ne.symm h]

theorem dedupLinks_nodup (ls : List Link) :
    ∀ seen : List String,
      ((dedupLinks seen ls).map Link.url).Nodup ∧
      ∀ u ∈ (dedupLinks seen ls).map Link.url, u ∉ seen := by
  induction ls with
  | nil =>
    intro seen
    simp [dedupLinks]
  | cons l t ih =>
    intro seen
    by_cases h : l.url ∈ seen
    · simpa [dedupLinks, h] using ih seen
    · have iht := ih (l.url :: seen)
      refine ⟨?_, ?_⟩
      · simp only [dedupLinks, if_neg h, List.map_cons, List.nodup_cons]
        refine ⟨?_, iht.1⟩
        intro hmem
        have := iht.2 _ hmem
        simp at this
      · intro u hu
        simp only [dedupLinks, if_neg h, List.map_cons, List.mem_cons] at hu
        rcases hu with hu | hu
        · subst hu
          exact h
        · have := iht.2 u hu
          intro hs
          exact this (List.mem_cons_of_mem _ hs)

theorem merge_walk_new_nodup (c : CacheState) (ds : Nat) (links : List Link)
    (now : Nat) :
    ((merge_walk c ds links now).2.map Link.url).Nodup := by
  rw [merge_walk_new]
  exact ((dedupLinks_nodup links []).1).sublist
    (List.Sublist.map Link.url (List.filter_sublist _))

theorem merge_walk_new_fresh (c : CacheState) (ds : Nat) (links : List Link)
    (now : Nat) :
    ∀ u ∈ (merge_walk c ds links now).2.map Link.url,
      u ∉ c.files.map Prod.fst := by
  intro u hu
  rw [merge_walk_new] at hu
  simp only [List.mem_map] at hu
  obtain ⟨l, hl, rfl⟩ := hu
  have := (List.mem_filter.mp hl).2
  have hnone : alookup l.url c.files = none := by
    cases hx : alookup l.url c.files with
    | none => rfl
    | some v =>
      rw [hx] at this
      simp at this
  exact (alookup_eq_none_iff _ _).mp hnone

theorem merge_walk_nodup (c : CacheState) (ds : Nat) (links : List Link)
    (now : Nat) (h : (c.files.map Prod.fst).Nodup) :
    ((merge_walk c ds links now).1.files.map Prod.fst).Nodup := by
  rw [merge_walk_keys, List.nodup_append]
  refine ⟨List.nodup_reverse.mpr (merge_walk_new_nodup c ds links now), h, ?_⟩
  intro a ha
  rw [List.mem_reverse] at ha
  exact merge_walk_new_fresh c ds links now a ha

theorem statusCount_append (st : DownloadStatus)
    (l1 l2 : List (String × FileMetadata)) :
    statusCount st (l1 ++ l2) = statusCount st l1 + statusCount st l2 := by
  induction l1 with
  | nil => simp [statusCount]
  | cons p t ih =>
    simp [statusCount, ih]
    omega

theorem statusCount_reverse (st : DownloadStatus)
    (l : List (String × FileMetadata)) :
    statusCount st l.reverse = statusCount st l := by
  induction l with
  | nil => rfl
  | cons p t ih =>
    rw [List.reverse_cons, statusCount_append]
    simp [statusCount, ih]
    omega

theorem statusCount_new_entries (ds now : Nat) (ls : List Link)
    (st : DownloadStatus) (h : st ≠ .pending) :
    statusCount st ((ls.map fun l => (l.url, mkMeta l ds now)).reverse) = 0 := by
  rw [statusCount_reverse]
  induction ls with
  | nil => rfl
  | cons l t ih =>
    simp only [List.map_cons, statusCount, ih]
    have : (mkMeta l ds now).status ≠ st := by
      simp [mkMeta]
      exact fun hx => h hx.symm
    simp [this]

theorem statusCount_restamp (uniq : List Link) (now : Nat) (st : DownloadStatus) :
    ∀ fs : List (String × FileMetadata),
      statusCount st (fs.map fun p =>
        if uniq.any fun l => l.url = p.1 then
          (p.1, { p.2 with last_checked := some now }) else p) =
        statusCount st fs := by
  intro fs
  induction fs with
  | nil => rfl
  | cons p t ih =>
    obtain ⟨a, b⟩ := p
    by_cases hc : uniq.any fun l => l.url = a
    · simp only [List.map_cons, statusCount, if_pos hc, ih]
    · simp only [List.map_cons, statusCount, if_neg hc, ih]

theorem merge_walk_statusCount (c : CacheState) (ds : Nat) (links : List Link)
    (now : Nat) (st : DownloadStatus) (h : st ≠ .pending) :
    statusCount st (merge_walk c ds links now).1.files =
      statusCount st c.files := by
  rw [merge_walk_files, statusCount_append, statusCount_new_entries _ _ _ _ h,
    statusCount_restamp]
  omega

theorem aupdate_of_not_mem {α β : Type} [DecidableEq α] {k : α} (v : β) :
    ∀ l : List (α × β), k ∉ l.map Prod.fst → aupdate k v l = l := by
  intro l
  induction l with
  | nil => intro _; rfl
  | cons p t ih =>
    obtain ⟨a, b⟩ := p
    intro h
    simp only [List.map_cons, List.mem_cons] at h
    push_neg at h
    have ha : a ≠ k := fun hx => h.1 hx.symm
    simp [aupdate, ha, ih h.2]

theorem statusCount_aupdate (url : String) (v : FileMetadata)
    (st : DownloadStatus) :
    ∀ (fs : List (String × FileMetadata)) (m : FileMetadata),
      (fs.map Prod.fst).Nodup → alookup url fs = some m →
      statusCount st (aupdate url v fs) + (if m.status = st then 1 else 0) =
        statusCount st fs + (if v.status = st then 1 else 0) := by
  intro fs
  induction fs with
  | nil =>
    intro m _ hl
    cases hl
  | cons p t ih =>
    intro m hnd hl
    obtain ⟨a, b⟩ := p
    simp only [List.map_cons, List.nodup_cons] at hnd
    by_cases ha : a = url
    · subst ha
      have hb : b = m := by
        simpa [alookup] using hl
      subst hb
      rw [show aupdate a v ((a, b) :: t) = (a, v) :: aupdate a v t by
        simp [aupdate]]
      rw [aupdate_of_not_mem v t hnd.1]
      simp only [statusCount]
      omega
    · simp only [alookup, if_neg ha] at hl
      rw [show aupdate url v ((a, b) :: t) = (a, b) :: aupdate url v t by
        simp [aupdate, ha]]
      simp only [statusCount]
      have := ih m hnd.2 hl
      omega

/-! ## Downloader branch analysis -/

theorem download_fetch_cases (m : FileMetadata) (disk : Disk) (env : DlEnv) :
    ((download_fetch m disk env).meta.status = .success ∧
      (download_fetch m disk env).dDownloaded = 1 ∧
      (download_fetch m disk env).dSkipped = 0 ∧
      (download_fetch m disk env).dFailed = 0) ∨
    ((download_fetch m disk env).meta.status = .failed ∧
      (download_fetch m disk env).dFailed = 1 ∧
      (download_fetch m disk env).dDownloaded = 0 ∧
      (download_fetch m disk env).dSkipped = 0) := by
  obtain ⟨fetch, now⟩ := env
  unfold download_fetch
  cases fetch with
  | noResponse => exact Or.inr ⟨rfl, rfl, rfl, rfl⟩
  | resp st body =>
    dsimp only
    by_cases h2 : st ≠ 200
    · rw [if_pos h2]
      exact Or.inr ⟨rfl, rfl, rfl, rfl⟩
    · rw [if_neg h2]
      by_cases h3 : ¬ verify_pdf_bytes body
      · rw [if_pos h3]
        exact Or.inr ⟨rfl, rfl, rfl, rfl⟩
      · rw [if_neg h3]
        by_cases h4 : body.length < 1024
        · rw [if_pos h4]
          exact Or.inr ⟨rfl, rfl, rfl, rfl⟩
        · rw [if_neg h4]
          exact Or.inl ⟨rfl, rfl, rfl, rfl⟩
  | streamFail pb msg => exact Or.inr ⟨rfl, rfl, rfl, rfl⟩

theorem download_file_cases (m : FileMetadata) (disk : Disk) (env : DlEnv) :
    ((download_file m disk env).meta = m ∧
      (download_file m disk env).dDownloaded = 0 ∧
      (download_file m disk env).dFailed = 0 ∧
      (download_file m disk env).dSkipped = 0) ∨
    ((download_file m disk env).meta.status = .success ∧
      (download_file m disk env).dDownloaded +
        (download_file m disk env).dSkipped = 1 ∧
      (download_file m disk env).dFailed = 0) ∨
    ((download_file m disk env).meta.status = .failed ∧
      (download_file m disk env).dFailed = 1 ∧
      (download_file m disk env).dDownloaded = 0 ∧
      (download_file m disk env).dSkipped = 0) := by
  unfold download_file
  by_cases h1 : m.status = .success ∧ path_exists m.download_path disk
  · rw [if_pos h1]
    exact Or.inl ⟨rfl, rfl, rfl, rfl⟩
  · rw [if_neg h1]
    cases hl : alookup (m.dataset, m.filename) disk with
    | some content =>
      dsimp only
      by_cases hv : verify_pdf_bytes content
      · rw [if_pos hv]
        exact Or.inr (Or.inl ⟨rfl, rfl, rfl⟩)
      · rw [if_neg hv]
        rcases download_fetch_cases m disk ⟨env.fetch, env.now⟩ with
          ⟨a, b, c, d⟩ | ⟨a, b, c, d⟩
        · exact Or.inr (Or.inl ⟨a, by rw [b, c], d⟩)
        · exact Or.inr (Or.inr ⟨a, b, c, d⟩)
    | none =>
      rcases download_fetch_cases m disk ⟨env.fetch, env.now⟩ with
        ⟨a, b, c, d⟩ | ⟨a, b, c, d⟩
      · exact Or.inr (Or.inl ⟨a, by rw [b, c], d⟩)
      · exact Or.inr (Or.inr ⟨a, b, c, d⟩)

/-! ## C5 — aggregate counters versus status tallies -/

theorem download_update_unchanged (c : CacheState) (url : String) (disk : Disk)
    (env : DlEnv) (h : alookup url c.files = none) :
    (download_update c url disk env).1 = c := by
  unfold download_update
  rw [h]

theorem download_update_found (c : CacheState) (url : String) (disk : Disk)
    (env : DlEnv) (m : FileMetadata) (h : alookup url c.files = some m) :
    (download_update c url disk env).1 =
      { c with
          files := aupdate url (download_file m disk env).meta c.files
          total_downloaded :=
            c.total_downloaded + (download_file m disk env).dDownloaded
          total_failed := c.total_failed + (download_file m disk env).dFailed
          total_skipped :=
            c.total_skipped + (download_file m disk env).dSkipped } := by
  unfold download_update
  rw [h]

theorem reach_inv (c : CacheState) (h : Reach c) :
    (c.files.map Prod.fst).Nodup ∧
    statusCount .success c.files ≤ c.total_downloaded + c.total_skipped ∧
    statusCount .failed c.files ≤ c.total_failed := by
  induction h with
  | empty now =>
    refine ⟨List.nodup_nil, ?_, ?_⟩ <;> simp [CacheState.fresh, statusCount]
  | walk ds links now hr ih =>
    obtain ⟨hnd, hs, hf⟩ := ih
    rename_i c0
    refine ⟨merge_walk_nodup _ _ _ _ hnd, ?_, ?_⟩
    · rw [merge_walk_statusCount _ _ _ _ _ (by decide),
        (merge_walk_counters c0 ds links now).1,
        (merge_walk_counters c0 ds links now).2.2]
      exact hs
    · rw [merge_walk_statusCount _ _ _ _ _ (by decide),
        (merge_walk_counters c0 ds links now).2.1]
      exact hf
  | download url disk env hr ih =>
    obtain ⟨hnd, hs, hf⟩ := ih
    rename_i c0
    cases hl : alookup url c0.files with
    | none =>
      rw [download_update_unchanged c0 url disk env hl]
      exact ⟨hnd, hs, hf⟩
    | some m =>
      rw [download_update_found c0 url disk env m hl]
      have hsu := statusCount_aupdate url (download_file m disk env).meta .success
        c0.files m hnd hl
      have hfa := statusCount_aupdate url (download_file m disk env).meta .failed
        c0.files m hnd hl
      refine ⟨?_, ?_, ?_⟩
      · dsimp only
        rw [aupdate_keys]
        exact hnd
      · dsimp only
        rcases download_file_cases m disk env with
          ⟨hm, h1, h2, h3⟩ | ⟨hm, h1, h2⟩ | ⟨hm, h1, h2, h3⟩
        · have e1 : (if (download_file m disk env).meta.status = DownloadStatus.success
              then 1 else 0) = (if m.status = DownloadStatus.success then 1 else 0) := by
            rw [hm]
          omega
        · have e1 : (if (download_file m disk env).meta.status = DownloadStatus.success
              then 1 else 0) = 1 := if_pos hm
          omega
        · have e1 : (if (download_file m disk env).meta.status = DownloadStatus.success
              then 1 else 0) = 0 := by
            rw [hm]
            decide
          omega
      · dsimp only
        rcases download_file_cases m disk env with
          ⟨hm, h1, h2, h3⟩ | ⟨hm, h1, h2⟩ | ⟨hm, h1, h2, h3⟩
        · have e1 : (if (download_file m disk env).meta.status = DownloadStatus.failed
              then 1 else 0) = (if m.status = DownloadStatus.failed then 1 else 0) := by
            rw [hm]
          omega
        · have e1 : (if (download_file m disk env).meta.status = DownloadStatus.failed
              then 1 else 0) = 0 := by
            rw [hm]
            decide
          omega
        · have e1 : (if (download_file m disk env).meta.status = DownloadStatus.failed
              then 1 else 0) = 1 := if_pos hm
          omega
  | cleanup hr ih =>
    refine ⟨List.nodup_nil, ?_, ?_⟩ <;> simp [cleanup_cache, statusCount]

/-- C5 counterexample: the claim demands `total_downloaded = #Success`,
`total_failed = #Failed` and `total_skipped = #Skipped` in every
reachable state. But after discovering one file and then verifying it
in place (the pre-existing local copy has valid magic bytes), the
reachable state has one Success record while `total_downloaded = 0`
and `total_skipped = 1` — and no record ever carries status Skipped. -/
theorem spec_c5_counterexample :
    ∃ c : CacheState, Reach c ∧
      ¬ (c.total_downloaded = statusCount .success c.files ∧
         c.total_failed = statusCount .failed c.files ∧
         c.total_skipped = statusCount .skipped c.files) := by
  refine ⟨(download_update
      (merge_walk (CacheState.fresh 0) 1 [⟨"u1", "doc.pdf"⟩] 0).1
      "u1" c1Disk envBlocked).1, ?_, ?_⟩
  · exact Reach.download "u1" c1Disk envBlocked
      (Reach.walk 1 [⟨"u1", "doc.pdf"⟩] 0 (Reach.empty 0))
  · decide

/-- C5 amended: the aggregate counters are event counters, not status
tallies — they only bound the tallies from above. In every reachable
state `#Success ≤ total_downloaded + total_skipped` and
`#Failed ≤ total_failed`; the claimed equalities fail because in-place
verification increments `total_skipped` while setting status Success
(status Skipped is never assigned), and each failed attempt increments
`total_failed` even when the record was already Failed. -/
theorem spec_c5_counters_bound (c : CacheState) (h : Reach c) :
    statusCount .success c.files ≤ c.total_downloaded + c.total_skipped ∧
    statusCount .failed c.files ≤ c.total_failed :=
  ⟨(reach_inv c h).2.1, (reach_inv c h).2.2⟩

/-! ## C6 — idempotent re-runs -/

theorem alookup_isSome_iff {α β : Type} [DecidableEq α] (k : α)
    (l : List (α × β)) :
    (alookup k l).isSome = true ↔ k ∈ l.map Prod.fst := by
  rcases hx : alookup k l with _ | v
  · simp [(alookup_eq_none_iff k l).mp hx]
  · simp only [Option.isSome_some, true_iff]
    by_contra hmem
    rw [← alookup_eq_none_iff] at hmem
    rw [hmem] at hx
    cases hx

theorem alookup_append_right {α β : Type} [DecidableEq α] (k : α) :
    ∀ (l1 l2 : List (α × β)), k ∉ l1.map Prod.fst →
      alookup k (l1 ++ l2) = alookup k l2 := by
  intro l1
  induction l1 with
  | nil => intro l2 _; rfl
  | cons p t ih =>
    intro l2 h
    obtain ⟨a, b⟩ := p
    simp only [List.map_cons, List.mem_cons] at h
    push_neg at h
    have ha : a ≠ k := fun hx => h.1 hx.symm
    simp only [List.cons_append, alookup, if_neg ha]
    exact ih l2 h.2

theorem merge_walk_lookup_mono (c : CacheState) (ds : Nat) (links : List Link)
    (now : Nat) (u : String) (h : (alookup u c.files).isSome = true) :
    (alookup u (merge_walk c ds links now).1.files).isSome = true := by
  rw [alookup_isSome_iff] at h ⊢
  rw [merge_walk_keys]
  exact List.mem_append_right _ h

theorem merge_walk_covers (c : CacheState) (ds : Nat) (links : List Link)
    (now : Nat) :
    ∀ l ∈ dedupLinks [] links,
      (alookup l.url (merge_walk c ds links now).1.files).isSome = true := by
  intro l hl
  rw [alookup_isSome_iff, merge_walk_keys]
  rcases hx : alookup l.url c.files with _ | v
  · apply List.mem_append_left
    rw [List.mem_reverse]
    apply List.mem_map_of_mem
    rw [merge_walk_new]
    refine List.mem_filter.mpr ⟨hl, ?_⟩
    rw [hx]
    rfl
  · apply List.mem_append_right
    rw [← alookup_isSome_iff, hx]
    rfl

theorem merge_walk_new_nil (c : CacheState) (ds : Nat) (links : List Link)
    (now : Nat)
    (h : ∀ l ∈ dedupLinks [] links, (alookup l.url c.files).isSome = true) :
    (merge_walk c ds links now).2 = [] := by
  rw [merge_walk_new]
  rw [List.filter_eq_nil_iff]
  intro l hl
  have := h l hl
  rcases hx : alookup l.url c.files with _ | v
  · rw [hx] at this
    cases this
  · simp

theorem download_fold_keys (env : String → DlEnv) :
    ∀ (ls : List Link) (cd : CacheState × Disk),
      ((ls.foldl (fun (p : CacheState × Disk) l =>
          download_update p.1 l.url p.2 (env l.url)) cd).1.files.map Prod.fst) =
        cd.1.files.map Prod.fst := by
  intro ls
  induction ls with
  | nil => intro cd; rfl
  | cons l t ih =>
    intro cd
    rw [List.foldl_cons, ih]
    exact download_update_keys _ _ _ _

theorem process_dataset_lookup_mono (resp : Nat → Nat → TransportResult)
    (env : String → DlEnv) (download : Bool) (now : Nat)
    (acc : CacheState × Disk × Nat × Nat) (ds : Nat) (u : String)
    (h : (alookup u acc.1.files).isSome = true) :
    (alookup u (process_dataset resp env download now acc ds).1.files).isSome
      = true := by
  unfold process_dataset
  by_cases hd : download = true
  · rw [if_pos hd]
    dsimp only
    rw [alookup_isSome_iff, download_fold_keys]
    rw [← alookup_isSome_iff]
    exact merge_walk_lookup_mono _ _ _ _ _ h
  · rw [if_neg hd]
    exact merge_walk_lookup_mono _ _ _ _ _ h

theorem process_dataset_covers (resp : Nat → Nat → TransportResult)
    (env : String → DlEnv) (download : Bool) (now : Nat)
    (acc : CacheState × Disk × Nat × Nat) (ds : Nat) :
    ∀ l ∈ dedupLinks [] (walk_run (resp ds)).allFiles,
      (alookup l.url (process_dataset resp env download now acc ds).1.files).isSome
        = true := by
  intro l hl
  unfold process_dataset
  by_cases hd : download = true
  · rw [if_pos hd]
    dsimp only
    rw [alookup_isSome_iff, download_fold_keys]
    rw [← alookup_isSome_iff]
    exact merge_walk_covers _ _ _ _ l hl
  · rw [if_neg hd]
    exact merge_walk_covers _ _ _ _ l hl

theorem run_fold_lookup_mono (resp : Nat → Nat → TransportResult)
    (env : String → DlEnv) (download : Bool) (now : Nat) :
    ∀ (dss : List Nat) (acc : CacheState × Disk × Nat × Nat) (u : String),
      (alookup u acc.1.files).isSome = true →
      (alookup u
        ((dss.foldl (process_dataset resp env download now) acc)).1.files).isSome
          = true := by
  intro dss
  induction dss with
  | nil => intro acc u h; exact h
  | cons d t ih =>
    intro acc u h
    rw [List.foldl_cons]
    exact ih _ u (process_dataset_lookup_mono resp env download now acc d u h)

theorem run_fold_covers (resp : Nat → Nat → TransportResult)
    (env : String → DlEnv) (download : Bool) (now : Nat) :
    ∀ (dss : List Nat) (acc : CacheState × Disk × Nat × Nat) (ds : Nat),
      ds ∈ dss →
      ∀ l ∈ dedupLinks [] (walk_run (resp ds)).allFiles,
        (alookup l.url
          ((dss.foldl (process_dataset resp env download now) acc)).1.files).isSome
            = true := by
  intro dss
  induction dss with
  | nil =>
    intro acc ds hds
    cases hds
  | cons d t ih =>
    intro acc ds hds l hl
    rw [List.foldl_cons]
    rcases List.mem_cons.mp hds with hd | hd
    · subst hd
      exact run_fold_lookup_mono resp env download now t _ l.url
        (process_dataset_covers resp env download now acc ds l hl)
    · exact ih _ ds hd l hl

theorem process_dataset_nil_new (resp : Nat → Nat → TransportResult)
    (env : String → DlEnv) (download : Bool) (now : Nat)
    (acc : CacheState × Disk × Nat × Nat) (ds : Nat)
    (h : (merge_walk acc.1 ds (walk_run (resp ds)).allFiles now).2 = []) :
    (process_dataset resp env download now acc ds).1 =
      (merge_walk acc.1 ds (walk_run (resp ds)).allFiles now).1 ∧
    (process_dataset resp env download now acc ds).2.2.1 = acc.2.2.1 ∧
    (process_dataset resp env download now acc ds).2.2.2 = acc.2.2.2 := by
  unfold process_dataset
  by_cases hd : download = true
  · rw [if_pos hd]
    rw [h]
    dsimp only
    refine ⟨rfl, rfl, rfl⟩
  · rw [if_neg hd]
    rw [h]
    dsimp only
    refine ⟨rfl, rfl, rfl⟩

theorem run_fold_counters (resp : Nat → Nat → TransportResult)
    (env : String → DlEnv) (download : Bool) (now : Nat) :
    ∀ (dss : List Nat) (acc : CacheState × Disk × Nat × Nat),
      (∀ ds ∈ dss, ∀ l ∈ dedupLinks [] (walk_run (resp ds)).allFiles,
        (alookup l.url acc.1.files).isSome = true) →
      (dss.foldl (process_dataset resp env download now) acc).2.2.1 = acc.2.2.1 ∧
      (dss.foldl (process_dataset resp env download now) acc).2.2.2 = acc.2.2.2 := by
  intro dss
  induction dss with
  | nil =>
    intro acc _
    exact ⟨rfl, rfl⟩
  | cons d t ih =>
    intro acc hcov
    rw [List.foldl_cons]
    have hnil : (merge_walk acc.1 d (walk_run (resp d)).allFiles now).2 = [] :=
      merge_walk_new_nil _ _ _ _ (hcov d (List.mem_cons_self d t))
    obtain ⟨hc1, hc2, hc3⟩ :=
      process_dataset_nil_new resp env download now acc d hnil
    have hcov' : ∀ ds ∈ t, ∀ l ∈ dedupLinks [] (walk_run (resp ds)).allFiles,
        (alookup l.url
          (process_dataset resp env download now acc d).1.files).isSome = true := by
      intro ds hds l hl
      exact process_dataset_lookup_mono resp env download now acc d l.url
        (hcov ds (List.mem_cons_of_mem d hds) l hl)
    obtain ⟨h1, h2⟩ := ih (process_dataset resp env download now acc d) hcov'
    rw [h1, h2, hc2, hc3]
    exact ⟨rfl, rfl⟩

theorem merge_walk_known_not_new (c : CacheState) (ds : Nat) (links : List Link)
    (now : Nat) (u : String) (m0 : FileMetadata)
    (h : alookup u c.files = some m0) :
    u ∉ (merge_walk c ds links now).2.map Link.url := by
  intro hu
  exact merge_walk_new_fresh c ds links now u hu
    ((alookup_isSome_iff u c.files).mp (by rw [h]; rfl))

theorem alookup_restamp (uniq : List Link) (now : Nat) :
    ∀ (fs : List (String × FileMetadata)) (u : String) (m0 : FileMetadata),
      alookup u fs = some m0 → (uniq.any fun l => l.url = u) = true →
      alookup u (fs.map fun p =>
        if uniq.any fun l => l.url = p.1 then
          (p.1, { p.2 with last_checked := some now }) else p) =
        some { m0 with last_checked := some now } := by
  intro fs
  induction fs with
  | nil =>
    intro u m0 h
    cases h
  | cons p t ih =>
    intro u m0 h hc
    obtain ⟨a, b⟩ := p
    by_cases ha : a = u
    · subst ha
      have hb : b = m0 := by simpa [alookup] using h
      subst hb
      simp only [List.map_cons]
      show alookup a ((if uniq.any fun l => l.url = a then
        (a, { b with last_checked := some now }) else (a, b)) :: _) = _
      rw [if_pos hc]
      simp [alookup]
    · simp only [alookup, if_neg ha] at h
      simp only [List.map_cons]
      show alookup u ((if uniq.any fun l => l.url = a then
        (a, { b with last_checked := some now }) else (a, b)) :: _) = _
      by_cases hcond : (uniq.any fun l => l.url = a) = true
      · rw [if_pos hcond]
        simp only [alookup, if_neg ha]
        exact ih u m0 h hc
      · rw [if_neg hcond]
        simp only [alookup, if_neg ha]
        exact ih u m0 h hc

theorem merge_walk_restamped (c : CacheState) (ds : Nat) (links : List Link)
    (now : Nat) (u : String) (m0 : FileMetadata)
    (h : alookup u c.files = some m0)
    (hc : ((dedupLinks [] links).any fun l => l.url = u) = true) :
    alookup u (merge_walk c ds links now).1.files =
      some { m0 with last_checked := some now } := by
  rw [merge_walk_files]
  rw [alookup_append_right]
  · exact alookup_restamp _ now c.files u m0 h hc
  · intro hu
    rw [List.map_reverse, List.mem_reverse, List.map_map] at hu
    have hu' : u ∈ (merge_walk c ds links now).2.map Link.url := by
      simpa using hu
    exact merge_walk_known_not_new c ds links now u m0 h hu'

/-- C6: over a fixed server, a second `discover_and_process_all` run
started from the first run's state adds zero new records and makes
zero `download_file` calls; and a URL already known to the cache is
merely re-stamped with `last_checked` by a page walk that sees it
again, and excluded from the walk's returned new records. -/
theorem spec_c6_idempotent_rerun :
    (∀ (resp : Nat → Nat → TransportResult) (env1 env2 : String → DlEnv)
        (startFrom fuel : Nat) (download : Bool) (now1 now2 t : Nat),
      (discover_and_process_all resp env2 startFrom fuel download now2
          (discover_and_process_all resp env1 startFrom fuel download now1
            (CacheState.fresh t) []).1
          (discover_and_process_all resp env1 startFrom fuel download now1
            (CacheState.fresh t) []).2.1).2.2.1 = 0 ∧
      (discover_and_process_all resp env2 startFrom fuel download now2
          (discover_and_process_all resp env1 startFrom fuel download now1
            (CacheState.fresh t) []).1
          (discover_and_process_all resp env1 startFrom fuel download now1
            (CacheState.fresh t) []).2.1).2.2.2 = 0) ∧
    (∀ (c : CacheState) (ds : Nat) (links : List Link) (now : Nat) (u : String)
        (m0 : FileMetadata),
      alookup u c.files = some m0 →
      ((dedupLinks [] links).any fun l => l.url = u) = true →
      alookup u (merge_walk c ds links now).1.files =
        some { m0 with last_checked := some now } ∧
      u ∉ (merge_walk c ds links now).2.map Link.url) := by
  constructor
  · intro resp env1 env2 startFrom fuel download now1 now2 t
    simp only [discover_and_process_all]
    apply run_fold_counters
    intro ds hds l hl
    exact run_fold_covers resp env1 download now1 _ _ ds hds l hl
  · intro c ds links now u m0 h hc
    exact ⟨merge_walk_restamped c ds links now u m0 h hc,
      merge_walk_known_not_new c ds links now u m0 h⟩

/-- Witness for C6: the second run over the one-dataset/one-file
server adds no records and downloads nothing, and the re-stamp clause
instantiated at a concrete known URL. -/
theorem spec_c6_idempotent_rerun_witness :
    ((discover_and_process_all respW envW 1 20 true 9
        (discover_and_process_all respW envW 1 20 true 3
          (CacheState.fresh 0) []).1
        (discover_and_process_all respW envW 1 20 true 3
          (CacheState.fresh 0) []).2.1).2.2.1 = 0) ∧
    alookup "u1"
        (merge_walk (merge_walk (CacheState.fresh 0) 1 [⟨"u1", "doc.pdf"⟩] 0).1
          1 [⟨"u1", "doc.pdf"⟩] 5).1.files =
      some { mkMeta ⟨"u1", "doc.pdf"⟩ 1 0 with last_checked := some 5 } := by
  constructor
  · exact (spec_c6_idempotent_rerun.1 respW envW envW 1 20 true 3 9 0).1
  · exact (spec_c6_idempotent_rerun.2
      (merge_walk (CacheState.fresh 0) 1 [⟨"u1", "doc.pdf"⟩] 0).1
      1 [⟨"u1", "doc.pdf"⟩] 5 "u1" (mkMeta ⟨"u1", "doc.pdf"⟩ 1 0)
      (by decide) (by decide)).1

/-- Witness for C5 amended: the bound instantiated at the reachable
state reached by one merge followed by one in-place-verify download. -/
theorem spec_c5_counters_bound_witness :
    statusCount .success
        (download_update (merge_walk (CacheState.fresh 0) 1 [⟨"u1", "doc.pdf"⟩] 0).1
          "u1" c1Disk envBlocked).1.files ≤
      (download_update (merge_walk (CacheState.fresh 0) 1 [⟨"u1", "doc.pdf"⟩] 0).1
          "u1" c1Disk envBlocked).1.total_downloaded +
        (download_update (merge_walk (CacheState.fresh 0) 1 [⟨"u1", "doc.pdf"⟩] 0).1
          "u1" c1Disk envBlocked).1.total_skipped :=
  (spec_c5_counters_bound _
    (Reach.download "u1" c1Disk envBlocked
      (Reach.walk 1 [⟨"u1", "doc.pdf"⟩] 0 (Reach.empty 0)))).1

end Archiver


